import Mathlib

/-!
Verification of the `RAGService` / `LLMService` component of the
RAG_without_framework application (src/services/service1.py and
src/services/llm_service.py), as a shallow embedding in Lean 4.

Modelling conventions:
* Python lists become Lean `List`s; Python dict records become structures.
* Fallible operations return `Except String α`; an `Except.error` models a
  raised Python exception, `Except.ok` models a normal return.
* External libraries (the sentence-embedding model, the FAISS index search,
  the Groq client, the HTTP stack) are modelled as oracle parameters:
  an `encode` function for the embedding model, explicit `scores`/`indices`
  lists for a FAISS search result, and `Except`-valued call results for the
  LLM network paths.
* Embedding-vector scalars (float32 in the source) are modelled by the
  opaque-to-us numeric type `Int`: no claim under verification performs any
  floating-point arithmetic; vectors are only stored, counted and compared.
* The file system is an explicit `Disk` record; a file either holds a value
  (`some v`, modelling a successfully parsed file) or is absent (`none`).
-/

namespace PyStr

/-- Accumulator pass behind `pySplit`: collect the current word's characters
(reversed) and emit a word at each whitespace boundary. -/
def pySplitAux : List Char → List Char → List String
  | [], acc => if acc.isEmpty then [] else [String.mk acc.reverse]
  | c :: rest, acc =>
    if c.isWhitespace then
      if acc.isEmpty then pySplitAux rest []
      else String.mk acc.reverse :: pySplitAux rest []
    else pySplitAux rest (c :: acc)

/-- Python `str.split()` with no arguments: split on runs of whitespace,
dropping empty pieces. -/
def pySplit (s : String) : List String :=
  pySplitAux s.data []

/-- Python `' '.join(ws)`: interleave the words with single spaces. -/
def sjoin : List String → String
  | [] => ""
  | [w] => w
  | w :: ws => w ++ " " ++ sjoin ws

/-- Truthiness of Python `s.strip()`: the stripped string is non-empty
exactly when `s` contains at least one non-whitespace character. -/
def strHasNonWS (s : String) : Bool :=
  s.data.any (fun c => !c.isWhitespace)

/-- Python `s.strip()` on a character list: drop leading and trailing
whitespace. -/
def pyStrip (l : List Char) : List Char :=
  (((l.dropWhile Char.isWhitespace).reverse.dropWhile Char.isWhitespace)).reverse

/-- One step of `re.sub(r'\s+', ' ', text)`: each maximal run of whitespace
characters collapses to a single space. -/
def collapseWS : List Char → List Char
  | [] => []
  | [c] => if c.isWhitespace then [' '] else [c]
  | c :: c2 :: rest =>
    if c.isWhitespace then
      if c2.isWhitespace then collapseWS (c2 :: rest)
      else ' ' :: collapseWS (c2 :: rest)
    else c :: collapseWS (c2 :: rest)

/-- Python regex `\w` on the ASCII-relevant fragment: alphanumeric or
underscore. -/
def isWordChar (c : Char) : Bool :=
  c.isAlphanum || c = '_'

/-- Characters kept by `re.sub(r'[^\w\s\.\,\!\?\;\:\-\(\)]', '', text)`. -/
def allowedChar (c : Char) : Bool :=
  isWordChar c || c.isWhitespace ||
    (c = '.' || c = ',' || c = '!' || c = '?' || c = ';' || c = ':' ||
     c = '-' || c = '(' || c = ')')

/-- Python negative-index aware list access `l[i]`; `none` models an
`IndexError`. -/
def pyIndex {α : Type} (l : List α) (i : Int) : Option α :=
  if 0 ≤ i then l.get? i.toNat
  else if (-i).toNat ≤ l.length then l.get? (l.length - (-i).toNat)
  else none

end PyStr

namespace RAGService

open PyStr

/-- Ceiling division on naturals, `⌈a / b⌉` for `b > 0`. -/
def ceilDiv (a b : Nat) : Nat := (a + b - 1) / b

/-- `range(0, numWords, step)` from the chunking loop, with Python `range`
semantics for every integer step: step `0` raises `ValueError`, a negative
step with start `0 ≤ stop` yields the empty range. -/
def chunk_starts (numWords : Nat) (step : Int) : Except String (List Nat) :=
  if step = 0 then Except.error "ValueError: range() arg 3 must not be zero"
  else if 0 < step then
    Except.ok ((List.range (ceilDiv numWords step.toNat)).map (fun k => k * step.toNat))
  else Except.ok []

/-- Core of `RAGService.chunk_text`, at the word level: the window of
`chunk_size` words starting at each index produced by `chunk_starts`, kept
when the joined window passes the `if chunk.strip():` test. -/
def chunk_text_words (chunk_size chunk_overlap : Nat) (words : List String) :
    Except String (List (List String)) :=
  (chunk_starts words.length ((chunk_size : Int) - (chunk_overlap : Int))).map
    (fun starts => (starts.map (fun i => (words.drop i).take chunk_size)).filter
      (fun w => strHasNonWS (sjoin w)))

/-- `RAGService.chunk_text`: split the text into words, take overlapping
windows, join each window with spaces. -/
def chunk_text (chunk_size chunk_overlap : Nat) (text : String) :
    Except String (List String) :=
  (chunk_text_words chunk_size chunk_overlap (pySplit text)).map
    (fun ws => ws.map sjoin)

/-- `RAGService.clean_text`: collapse whitespace runs, drop characters
outside `[\w\s.,!?;:\-()]`, strip. -/
def clean_text (text : String) : String :=
  String.mk (pyStrip ((collapseWS text.data).filter allowedChar))

/-- An embedding vector: a row of the float32 matrix, scalars modelled
opaquely by `Int` (no claim computes with the float values). -/
abbrev Vec := List Int

/-- One chunk record, as appended by `add_documents`. -/
structure ChunkDoc where
  id : String
  content : String
  file_name : String
  original_text : String
deriving DecidableEq, Repr

/-- The mutable fields of a `RAGService` instance that the claims concern:
the document collection, the embedding matrix, the FAISS index (`none`
models a Python `None` index; `some vs` an index holding vectors `vs`), and
the chunking configuration. -/
structure RAGState where
  documents : List ChunkDoc
  document_embeddings : List Vec
  index : Option (List Vec)
  chunk_size : Nat
  chunk_overlap : Nat
deriving DecidableEq, Repr

/-- The state right after `RAGService.__init__`. -/
def initState : RAGState :=
  { documents := [], document_embeddings := [], index := none,
    chunk_size := 512, chunk_overlap := 50 }

/-- `index.ntotal` of the FAISS index; a `None` index holds no vectors. -/
def indexSize (idx : Option (List Vec)) : Nat :=
  match idx with
  | none => 0
  | some vs => vs.length

/-- The on-disk artifacts: `documents.json`, `embeddings.pkl`,
`faiss_index.bin` (each `some v` when the file exists and parses to `v`),
and the raw text copies under the data directory. -/
structure Disk where
  documents_file : Option (List ChunkDoc)
  embeddings_file : Option (List Vec)
  index_file : Option (List Vec)
  dataFiles : List (String × String)
deriving DecidableEq, Repr

/-- A fresh data directory and database directory. -/
def initDisk : Disk :=
  { documents_file := none, embeddings_file := none, index_file := none,
    dataFiles := [] }

/-- Writing a file into the data directory (overwrite on same name). -/
def writeDataFile (fs : List (String × String)) (name content : String) :
    List (String × String) :=
  (name, content) :: fs.filter (fun p => p.1 ≠ name)

/-- Which of the three writes inside `save_data` fails first, if any.
`save_data` wraps all three writes in one `try/except` that only prints,
so a failure aborts the remaining writes but raises nothing. -/
inductive SaveOutcome where
  | allOk
  | failDocs
  | failEmb
  | failIndex
deriving DecidableEq, Repr

/-- `RAGService.save_data`: write documents, then embeddings, then (only
when the index is not `None`) the FAISS index. Any exception is caught and
discarded, so the function always returns and later writes are skipped
after a failure. -/
def save_data (s : RAGState) (d : Disk) (o : SaveOutcome) : Disk :=
  match o with
  | SaveOutcome.failDocs => d
  | SaveOutcome.failEmb => { d with documents_file := some s.documents }
  | SaveOutcome.failIndex =>
      { d with documents_file := some s.documents,
               embeddings_file := some s.document_embeddings }
  | SaveOutcome.allOk =>
      { d with documents_file := some s.documents,
               embeddings_file := some s.document_embeddings,
               index_file := match s.index with
                 | some vs => some vs
                 | none => d.index_file }

/-- `RAGService.load_existing_data`: read the documents file when present;
read embeddings and index only when both their files are present, otherwise
reset to an empty matrix and a `None` index. -/
def load_existing_data (s : RAGState) (d : Disk) : RAGState :=
  let s1 := match d.documents_file with
    | some docs => { s with documents := docs }
    | none => s
  match d.index_file, d.embeddings_file with
  | some vs, some embs =>
      { s1 with document_embeddings := embs, index := some vs }
  | _, _ =>
      { s1 with document_embeddings := [], index := none }

/-- `RAGService.clear_documents`: reset the in-memory state, delete the
three database files (guarded by existence checks, so absent files raise
nothing), and recreate the data directory empty. -/
def clear_documents (s : RAGState) (d : Disk) : RAGState × Disk :=
  ({ s with documents := [], document_embeddings := [], index := none },
   { d with documents_file := none, embeddings_file := none,
            index_file := none, dataFiles := [] })

/-- `RAGService.update_embeddings`: a no-op on an empty collection;
otherwise re-encode every document content (via the embedding-model oracle
`encode`) and rebuild the FAISS index from scratch (`reset` + `add`), so
the index afterwards holds exactly the new matrix. -/
def update_embeddings (encode : String → Vec) (s : RAGState) : RAGState :=
  if s.documents.isEmpty then s
  else
    let embeddings := s.documents.map (fun doc => encode doc.content)
    { s with document_embeddings := embeddings, index := some embeddings }

/-- `text[:100] + "..." if len(text) > 100 else text`. -/
def origPreview (text : String) : String :=
  if text.length > 100 then text.take 100 ++ "..." else text

/-- The inner `for j, chunk in enumerate(chunks)` loop of `add_documents`:
append one record per chunk, the id being built from the current collection
length and the chunk position. -/
def appendChunks (s : RAGState) (orig file_name : String)
    (chunks : List String) (j : Nat) : RAGState :=
  match chunks with
  | [] => s
  | c :: rest =>
    let doc : ChunkDoc :=
      { id := "doc_" ++ toString s.documents.length ++ "_" ++ toString j,
        content := c, file_name := file_name, original_text := origPreview orig }
    appendChunks { s with documents := s.documents ++ [doc] } orig file_name rest (j + 1)

/-- The outer `for i, text in enumerate(texts)` loop of `add_documents`:
clean and chunk each text (a chunking exception propagates), pick the file
name, write the raw copy into the data directory, append the chunk records,
and count the chunks added. -/
def addTexts (s : RAGState) (d : Disk) (texts file_names : List String)
    (i : Nat) : Except String (RAGState × Disk × Nat) :=
  match texts with
  | [] => Except.ok (s, d, 0)
  | text :: rest =>
    match chunk_text s.chunk_size s.chunk_overlap (clean_text text) with
    | Except.error e => Except.error e
    | Except.ok chunks =>
      let file_name := match file_names.get? i with
        | some nm => nm
        | none => "doc_" ++ toString i
      let d1 := { d with dataFiles := writeDataFile d.dataFiles (file_name ++ ".txt") text }
      let s1 := appendChunks s text file_name chunks 0
      match addTexts s1 d1 rest file_names (i + 1) with
      | Except.error e => Except.error e
      | Except.ok (s2, d2, m) => Except.ok (s2, d2, chunks.length + m)

/-- `RAGService.add_documents`: run the ingestion loop, then
`update_embeddings`, then `save_data` (whose outcome `o` is the write
oracle — its errors are swallowed), and return the number of chunks added.
An exception inside the loop or the embedding refresh propagates
(`except ... raise`). -/
def add_documents (encode : String → Vec) (s : RAGState) (d : Disk)
    (o : SaveOutcome) (texts file_names : List String) :
    Except String (RAGState × Disk × Nat) :=
  match addTexts s d texts file_names 0 with
  | Except.error e => Except.error e
  | Except.ok (s1, d1, n) =>
    let s2 := update_embeddings encode s1
    let d2 := save_data s2 d1 o
    Except.ok (s2, d2, n)

/-- One entry of the `relevant_docs` list built inside `query`. -/
structure RelDoc where
  content : String
  score : Int
  id : String
  file_name : String
deriving DecidableEq, Repr

/-- The `for i, (score, idx) in enumerate(zip(scores[0], indices[0]))` loop
of `query`: keep a pair when `idx < len(self.documents)` (a check a
negative `idx` passes), then index the collection with Python semantics —
`documents[idx]` with a negative in-range `idx` resolves from the end, and
an out-of-range access is an `IndexError`. -/
def buildRelevant (docs : List ChunkDoc) :
    List (Int × Int) → Except String (List RelDoc)
  | [] => Except.ok []
  | (score, idx) :: rest =>
    if idx < (docs.length : Int) then
      match pyIndex docs idx with
      | none => Except.error "IndexError: list index out of range"
      | some doc =>
        match buildRelevant docs rest with
        | Except.error e => Except.error e
        | Except.ok r =>
          Except.ok ({ content := doc.content, score := score,
                       id := doc.id, file_name := doc.file_name } :: r)
    else buildRelevant docs rest

/-- `RAGService.generate_answer_with_llm`: a fixed message when nothing was
retrieved, otherwise the LLM oracle applied to the question and the
double-newline-joined context. -/
def generate_answer_with_llm (llm : String → String → String)
    (question : String) (relevant_docs : List RelDoc) : String :=
  if relevant_docs.isEmpty then
    "I don't have enough information to answer this question."
  else
    llm question (String.intercalate "\n\n"
      (relevant_docs.map (fun doc => doc.content)))

set_option linter.unusedVariables false in
/-- `RAGService.query`: the fixed no-documents reply on an empty collection
or a `None` index; otherwise filter the FAISS search result (`scores` and
`indices` are the two rows the index search returned, oracles here), ask
the LLM, and report the first raw score as the confidence. `top_k` is
consumed by the modelled-out FAISS search. -/
def query (llm : String → String → String) (s : RAGState)
    (question : String) (top_k : Nat) (scores indices : List Int) :
    Except String (String × List String × Int) :=
  if s.documents.isEmpty || s.index.isNone then
    Except.ok ("No documents available. Please upload some documents first.",
      [], 0)
  else
    match buildRelevant s.documents (scores.zip indices) with
    | Except.error e => Except.error e
    | Except.ok relevant_docs =>
      let answer := generate_answer_with_llm llm question relevant_docs
      let confidence : Int := match scores with
        | [] => 0
        | sc :: _ => sc
      let sources := relevant_docs.map (fun doc => doc.id)
      Except.ok (answer, sources, confidence)

/-- The index-alignment invariant of the spec: the collection, the
embedding matrix and the FAISS index are the same size. -/
abbrev aligned (s : RAGState) : Prop :=
  s.documents.length = s.document_embeddings.length ∧
    s.document_embeddings.length = indexSize s.index

/-- Resolve a list of Python indices against the collection; `some ds`
exactly when every index is in (negative-indexing) range. Used to name the
records the real (non-padding) search hits denote. -/
def lookupAll (docs : List ChunkDoc) : List Int → Option (List ChunkDoc)
  | [] => some []
  | i :: rest =>
    match pyIndex docs i, lookupAll docs rest with
    | some d0, some ds => some (d0 :: ds)
    | _, _ => none

/-- The single chunk record produced by ingesting the text
`"hello world"` into a fresh service. -/
def w1doc : ChunkDoc :=
  { id := "doc_0_0", content := "hello world", file_name := "doc_0",
    original_text := "hello world" }

/-- The service state after that ingestion, under the embedding oracle
`fun _ => [0]`. -/
def w1state : RAGState :=
  { documents := [w1doc], document_embeddings := [[0]], index := some [[0]],
    chunk_size := 512, chunk_overlap := 50 }

/-- The disk contents after that ingestion with all writes succeeding. -/
def w1disk : Disk :=
  { documents_file := some [w1doc], embeddings_file := some [[0]],
    index_file := some [[0]], dataFiles := [("doc_0.txt", "hello world")] }

/-- First chunk record of a two-chunk collection. -/
def w10doc1 : ChunkDoc :=
  { id := "doc_0_0", content := "alpha", file_name := "f",
    original_text := "alpha beta" }

/-- Second (last) chunk record of a two-chunk collection. -/
def w10doc2 : ChunkDoc :=
  { id := "doc_0_1", content := "beta", file_name := "f",
    original_text := "alpha beta" }

/-- A ready two-chunk service state. -/
def w10state : RAGState :=
  { documents := [w10doc1, w10doc2], document_embeddings := [[1], [2]],
    index := some [[1], [2]], chunk_size := 512, chunk_overlap := 50 }

end RAGService

namespace LLMService

/-- The apology string `_call_groq_api_directly` returns when the direct
HTTP path fails. -/
def apologyMsg (e : String) : String :=
  "I apologize, but I encountered an error while generating the answer: " ++ e

/-- The prompt template shared by both paths. -/
def buildPrompt (question context : String) : String :=
  "Based on the following context, please answer the question.\n\nContext: "
    ++ context ++ "\n\nQuestion: " ++ question ++ "\n\nAnswer:"

/-- `LLMService._call_groq_api_directly`: the whole HTTP request, status
check and JSON extraction are one oracle `httpCall`; any exception in them
is caught and converted to the apology string, so this function always
returns a string. -/
def call_groq_api_directly (prompt : String)
    (httpCall : Except String String) : String :=
  match prompt, httpCall with
  | _, Except.ok body => body
  | _, Except.error e => apologyMsg e

/-- `LLMService.generate_answer`. `clientReady` is whether `self.client`
is already set; `initOk` whether `initialize()` would succeed; `groqCall`
the outcome of the client-library completion call; `httpCall` the outcome
of the direct HTTP fallback. When the client is unset and `initialize()`
raises, the exception handler evaluates `self._call_groq_api_directly(prompt)`
before `prompt` was ever assigned, so an `UnboundLocalError` escapes the
function. -/
def generate_answer (question context : String) (clientReady initOk : Bool)
    (groqCall : Except String String) (httpCall : Except String String) :
    Except String String :=
  if clientReady = false && initOk = false then
    Except.error "UnboundLocalError: local variable prompt referenced before assignment"
  else
    match groqCall with
    | Except.ok ans => Except.ok ans
    | Except.error _ =>
      Except.ok (call_groq_api_directly (buildPrompt question context) httpCall)

end LLMService

/-! ## Lemmas about chunking -/

namespace RAGService

open PyStr

lemma strHasNonWS_sjoin {ws : List String} {w : String} (hw : w ∈ ws)
    (h : strHasNonWS w = true) : strHasNonWS (sjoin ws) = true := by
  induction ws with
  | nil => cases hw
  | cons a tl ih =>
    cases tl with
    | nil =>
      rcases List.mem_singleton.mp hw with rfl
      exact h
    | cons b tl2 =>
      show strHasNonWS (a ++ " " ++ sjoin (b :: tl2)) = true
      unfold strHasNonWS at h ⊢
      rw [String.data_append, String.data_append, List.any_append, List.any_append]
      rcases List.mem_cons.mp hw with rfl | hmem
      · simp [h]
      · have hr := ih hmem
        unfold strHasNonWS at hr
        simp [hr]

lemma window_kept {words : List String}
    (hword : ∀ w ∈ words, strHasNonWS w = true)
    {i : Nat} (hi : i < words.length) :
    strHasNonWS (sjoin ((words.drop i).take 512)) = true := by
  have hne : words.drop i ≠ [] := by
    rw [ne_eq, List.drop_eq_nil_iff]
    omega
  obtain ⟨a, tl, heq⟩ := List.exists_cons_of_ne_nil hne
  have hwin : (words.drop i).take 512 = a :: tl.take 511 := by rw [heq]; rfl
  have hmem : a ∈ words := List.mem_of_mem_drop (heq ▸ List.mem_cons_self a tl)
  exact strHasNonWS_sjoin (hwin ▸ List.mem_cons_self a _) (hword a hmem)

/-- Characterization of `chunk_text_words` at the default configuration
(`chunk_size = 512`, `chunk_overlap = 50`, stride `462`) on a list of words
each of which has a non-whitespace character (as every word produced by
`str.split()` does): the chunks are exactly the 512-word windows at starts
`0, 462, 924, …`, one per `k < ⌈W / 462⌉`. -/
lemma chunk_text_words_512 (words : List String)
    (hword : ∀ w ∈ words, strHasNonWS w = true) :
    chunk_text_words 512 50 words =
      Except.ok ((List.range (ceilDiv words.length 462)).map
        (fun k => (words.drop (k * 462)).take 512)) := by
  unfold chunk_text_words chunk_starts
  have hz : ¬ (((512 : Nat) : Int) - ((50 : Nat) : Int) = 0) := by decide
  have hp : (0 : Int) < ((512 : Nat) : Int) - ((50 : Nat) : Int) := by decide
  have ht : (((512 : Nat) : Int) - ((50 : Nat) : Int)).toNat = 462 := by decide
  rw [if_neg hz, if_pos hp, ht]
  simp only [Except.map, List.map_map]
  congr 1
  have hcomp : (fun i => List.take 512 (List.drop i words)) ∘ (fun k => k * 462) =
      fun k => List.take 512 (List.drop (k * 462) words) := rfl
  rw [hcomp, List.filter_eq_self]
  intro x hx
  rcases List.mem_map.mp hx with ⟨k, hk, rfl⟩
  rcases List.mem_range.mp hk with hklt
  apply window_kept hword
  unfold ceilDiv at hklt
  omega

/-- C3, counterexample: with `chunk_size = 1`, `chunk_overlap = 2` the
stride is `-1 ≤ 0`, yet chunking the non-empty text `"a"` does not raise:
Python `range(0, 1, -1)` is empty, so `chunk_text` returns an empty chunk
list. -/
theorem c3_counterexample : chunk_text 1 2 "a" = Except.ok [] := rfl

/-- C3, amended: with stride `chunk_size - chunk_overlap ≤ 0`, chunking
raises only in the `stride = 0` case (Python `range` rejects a zero step
with `ValueError`); a strictly negative stride instead yields an empty
`range`, so `chunk_text` returns an empty chunk list without raising. -/
theorem c3_amended (chunk_size chunk_overlap : Nat) (text : String)
    (h : (chunk_size : Int) - (chunk_overlap : Int) ≤ 0) :
    chunk_text chunk_size chunk_overlap text =
      if chunk_size = chunk_overlap then
        Except.error "ValueError: range() arg 3 must not be zero"
      else Except.ok [] := by
  unfold chunk_text chunk_text_words chunk_starts
  by_cases heq : chunk_size = chunk_overlap
  · subst heq
    simp [Except.map]
  · have h1 : ¬ ((chunk_size : Int) - (chunk_overlap : Int) = 0) := by
      intro hc
      exact heq (by omega)
    have h2 : ¬ ((0 : Int) < (chunk_size : Int) - (chunk_overlap : Int)) := by
      omega
    rw [if_neg h1, if_neg h2]
    simp [heq, Except.map]

/-- C3, witness for the amended theorem: `chunk_size = chunk_overlap = 5`
has stride `0` and chunking the non-empty text `"a b"` raises the range
`ValueError`. -/
theorem c3_witness :
    chunk_text 5 5 "a b" =
      Except.error "ValueError: range() arg 3 must not be zero" :=
  c3_amended 5 5 "a b" (by decide)

set_option maxRecDepth 100000 in
/-- C4, counterexample: a text of `W = 463` words (`462 < 463 < 512`)
chunked with `chunk_size = 512`, `overlap = 50` yields TWO chunks of 463
and 1 words — not the single chunk of `W` words the claim promises for
`W < 512`, and its first (non-last) chunk has 463 ≠ 512 words. -/
theorem c4_counterexample :
    (chunk_text_words 512 50 (List.replicate 463 "a")).map
        (fun cs => cs.map List.length) =
      Except.ok [463, 1] ∧ ([463, 1] : List Nat) ≠ [463] := by
  constructor
  · rfl
  · decide

/-- C4, amended: at `chunk_size = 512`, `overlap = 50`, the chunk at
position `k` has exactly `min 512 (W - 462·k)` words. Hence every chunk
except possibly the last **two** has exactly 512 words, and a text of
`W ≤ 462` words yields a single chunk of `W` words; a penultimate chunk
may be shorter than 512 words (namely when `0 < W mod 462 < 50`), which
refutes the claim as stated. -/
theorem c4_amended (words : List String)
    (hword : ∀ w ∈ words, strHasNonWS w = true) :
    (chunk_text_words 512 50 words).map (fun cs => cs.map List.length) =
      Except.ok ((List.range (ceilDiv words.length 462)).map
        (fun k => min 512 (words.length - k * 462))) := by
  rw [chunk_text_words_512 words hword]
  simp [Except.map, List.map_map, Function.comp]

/-- C4, witness for the amended theorem at the one-word text. -/
theorem c4_witness :
    (chunk_text_words 512 50 ["a"]).map (fun cs => cs.map List.length) =
      Except.ok ((List.range (ceilDiv (["a"] : List String).length 462)).map
        (fun k => min 512 ((["a"] : List String).length - k * 462))) :=
  c4_amended ["a"] (by decide)

set_option linter.unusedVariables false in
/-- C6, confirmed (in the strong, exact form): a non-empty text of `W`
words chunked with `chunk_size = 512`, `overlap = 50` yields exactly
`⌈W / 462⌉` chunks — in particular the count is within the claimed
off-by-one of `⌈W / (512 - 50)⌉`. -/
theorem c6_chunk_count (text : String)
    (h0 : 0 < (pySplit text).length)
    (hword : ∀ w ∈ pySplit text, strHasNonWS w = true) :
    (chunk_text 512 50 text).map List.length =
      Except.ok (ceilDiv (pySplit text).length 462) := by
  unfold chunk_text
  rw [chunk_text_words_512 (pySplit text) hword]
  simp [Except.map]

/-- C6, witness: the two-word text `"a b"` yields `⌈2 / 462⌉ = 1` chunk. -/
theorem c6_witness :
    (chunk_text 512 50 "a b").map List.length =
      Except.ok (ceilDiv (pySplit "a b").length 462) :=
  c6_chunk_count "a b" (by decide) (by decide)

/-! ## Query on an empty collection (C5) and idempotence of clear (C9) -/

/-- C5, confirmed: for every question, `top_k` and search oracle, `query`
on an empty document collection returns exactly the fixed no-documents
answer, an empty sources list, and confidence `0.0` — the first branch of
`query` fires before any search or LLM call. -/
theorem c5_empty_query (llm : String → String → String) (s : RAGState)
    (question : String) (top_k : Nat) (scores indices : List Int)
    (h : s.documents = []) :
    query llm s question top_k scores indices =
      Except.ok
        ("No documents available. Please upload some documents first.",
          [], 0) := by
  unfold query
  rw [if_pos]
  rw [h]
  simp

/-- C5, witness: the freshly initialized service. -/
theorem c5_witness :
    query (fun _ answer => answer) initState "What is AI?" 3 [] [] =
      Except.ok
        ("No documents available. Please upload some documents first.",
          [], 0) :=
  c5_empty_query (fun _ answer => answer) initState "What is AI?" 3 [] [] rfl

/-- C9, confirmed: `clear_documents` is idempotent — running it on the
state and disk it just produced yields the identical empty state and disk,
and (being total in the model, as the deletions are guarded by existence
checks in the source) the second call raises no error. -/
theorem c9_clear_idempotent (s : RAGState) (d : Disk) :
    clear_documents (clear_documents s d).1 (clear_documents s d).2 =
      clear_documents s d := rfl

end RAGService

/-! ## LLM boundary (C2) -/

namespace LLMService

/-- C2, counterexample: when `self.client` is `None` and `initialize()`
raises, the `except` handler of `generate_answer` evaluates
`self._call_groq_api_directly(prompt)` before `prompt` was ever assigned,
so an `UnboundLocalError` escapes `generate_answer` — it does raise past
this boundary, even though the direct HTTP fallback would have succeeded. -/
theorem c2_counterexample :
    generate_answer "What is AI?" "some context" false false
        (Except.error "client-library failure") (Except.ok "an answer") =
      Except.error
        "UnboundLocalError: local variable prompt referenced before assignment" :=
  rfl

/-- C2, amended: **provided the client is already initialized or
`initialize()` succeeds**, `generate_answer` never raises: it returns the
client-library answer when that path succeeds, otherwise the result of the
direct-HTTP fallback — which itself returns the user-facing apology string
embedding the error text when it too fails. -/
theorem c2_amended (question context : String) (clientReady initOk : Bool)
    (groqCall httpCall : Except String String)
    (h : clientReady = true ∨ initOk = true) :
    generate_answer question context clientReady initOk groqCall httpCall =
      Except.ok
        (match groqCall with
          | Except.ok ans => ans
          | Except.error _ =>
            call_groq_api_directly (buildPrompt question context) httpCall) := by
  unfold generate_answer
  have hcond : ¬ (clientReady = false && initOk = false) = true := by
    rcases h with h | h <;> simp [h]
  rw [if_neg hcond]
  cases groqCall <;> rfl

/-- C2, witness: client ready, both network paths fail — the returned
value is the apology string embedding the HTTP error. -/
theorem c2_witness :
    generate_answer "q" "ctx" true false
        (Except.error "groq down") (Except.error "http down") =
      Except.ok (apologyMsg "http down") :=
  c2_amended "q" "ctx" true false
    (Except.error "groq down") (Except.error "http down") (Or.inl rfl)

end LLMService

/-! ## Ingestion and persistence (C1, C7, C8) -/

namespace RAGService

/-- C1, counterexample: ingesting `"hello world"` into a fresh service with
the documents write failing (`SaveOutcome.failDocs`, an exception
`save_data` catches and merely prints): `add_documents` returns normally
with count 1 and one in-memory record, yet the on-disk documents file was
never written (`none` ≠ the one-record collection) — a successful return
does **not** leave disk and memory identical, because persistence errors
are swallowed rather than raised. -/
theorem c1_counterexample :
    (add_documents (fun _ => [0]) initState initDisk SaveOutcome.failDocs
        ["hello world"] []).map
      (fun r => (r.2.1.documents_file == some r.1.documents, r.2.2)) =
      Except.ok (false, 1) := rfl

/-- C1, amended: `add_documents` returning normally guarantees the on-disk
documents file matches the in-memory collection only when the documents
write itself succeeded (`save_data` swallows write errors); under that
proviso the invariant holds. -/
theorem c1_amended (encode : String → Vec) (s : RAGState) (d : Disk)
    (o : SaveOutcome) (texts file_names : List String)
    (s' : RAGState) (d' : Disk) (n : Nat)
    (ho : o ≠ SaveOutcome.failDocs)
    (h : add_documents encode s d o texts file_names =
      Except.ok (s', d', n)) :
    d'.documents_file = some s'.documents := by
  unfold add_documents at h
  split at h
  · exact absurd h (by simp)
  · simp only [Except.ok.injEq, Prod.mk.injEq] at h
    obtain ⟨hs, hd, -⟩ := h
    subst hs
    subst hd
    cases o with
    | failDocs => exact absurd rfl ho
    | allOk => rfl
    | failEmb => rfl
    | failIndex => rfl

/-- C1, witness for the amended theorem: same ingestion with all writes
succeeding; the documents file now equals the collection. -/
theorem c1_witness : w1disk.documents_file = some w1state.documents :=
  c1_amended (fun _ => [0]) initState initDisk SaveOutcome.allOk
    ["hello world"] [] w1state w1disk 1 (by decide) rfl

lemma appendChunks_fields (chunks : List String) :
    ∀ (s : RAGState) (orig fn : String) (j : Nat),
    (appendChunks s orig fn chunks j).document_embeddings =
        s.document_embeddings ∧
      (appendChunks s orig fn chunks j).index = s.index ∧
      (appendChunks s orig fn chunks j).chunk_size = s.chunk_size ∧
      (appendChunks s orig fn chunks j).chunk_overlap = s.chunk_overlap ∧
      ∃ app, (appendChunks s orig fn chunks j).documents =
        s.documents ++ app := by
  induction chunks with
  | nil =>
    intro s orig fn j
    exact ⟨rfl, rfl, rfl, rfl, [], by simp [appendChunks]⟩
  | cons c rest ih =>
    intro s orig fn j
    simp only [appendChunks]
    obtain ⟨h1, h2, h3, h4, app, h5⟩ := ih _ orig fn (j + 1)
    refine ⟨h1, h2, h3, h4,
      { id := "doc_" ++ toString s.documents.length ++ "_" ++ toString j,
        content := c, file_name := fn,
        original_text := origPreview orig } :: app, ?_⟩
    rw [h5]
    simp

lemma addTexts_fields (texts : List String) :
    ∀ (s : RAGState) (d : Disk) (names : List String) (i : Nat)
      (s1 : RAGState) (d1 : Disk) (n : Nat),
    addTexts s d texts names i = Except.ok (s1, d1, n) →
    s1.document_embeddings = s.document_embeddings ∧ s1.index = s.index ∧
      s1.chunk_size = s.chunk_size ∧ s1.chunk_overlap = s.chunk_overlap ∧
      ∃ app, s1.documents = s.documents ++ app := by
  induction texts with
  | nil =>
    intro s d names i s1 d1 n h
    simp only [addTexts, Except.ok.injEq, Prod.mk.injEq] at h
    obtain ⟨rfl, rfl, rfl⟩ := h
    exact ⟨rfl, rfl, rfl, rfl, [], by simp⟩
  | cons t rest ih =>
    intro s d names i s1 d1 n h
    simp only [addTexts] at h
    split at h
    · exact absurd h (by simp)
    · split at h
      · exact absurd h (by simp)
      · next s2 d2 m heq =>
        simp only [Except.ok.injEq, Prod.mk.injEq] at h
        obtain ⟨rfl, rfl, -⟩ := h
        obtain ⟨g1, g2, g3, g4, app1, g5⟩ := ih _ _ names (i + 1) _ _ _ heq
        obtain ⟨f1, f2, f3, f4, app0, f5⟩ :=
          appendChunks_fields _ s t _ 0
        refine ⟨g1.trans f1, g2.trans f2, g3.trans f3, g4.trans f4,
          app0 ++ app1, ?_⟩
        rw [g5, f5, List.append_assoc]

/-- C7, confirmed: starting from any state satisfying the alignment
invariant (as every reachable state does), a successful `add_documents`
leaves the collection length, the number of embedding rows, and the number
of vectors in the index all equal: `update_embeddings` rebuilds matrix and
index together from the whole collection whenever it is non-empty, and
leaves an (already aligned) empty state untouched. -/
theorem c7_index_alignment (encode : String → Vec) (s : RAGState) (d : Disk)
    (o : SaveOutcome) (texts file_names : List String)
    (s' : RAGState) (d' : Disk) (n : Nat)
    (ha : aligned s)
    (h : add_documents encode s d o texts file_names =
      Except.ok (s', d', n)) :
    aligned s' := by
  unfold add_documents at h
  split at h
  · exact absurd h (by simp)
  · next s1 d1 m heq =>
    simp only [Except.ok.injEq, Prod.mk.injEq] at h
    obtain ⟨hs, -, -⟩ := h
    subst hs
    obtain ⟨g1, g2, -, -, app, g5⟩ := addTexts_fields _ _ _ _ _ _ _ _ heq
    by_cases hemp : s1.documents.isEmpty
    · have hnil : s1.documents = [] := List.isEmpty_iff.mp hemp
      have hsnil : s.documents = [] := by
        rcases List.append_eq_nil.mp (g5 ▸ hnil) with ⟨h', -⟩
        exact h'
      obtain ⟨ha1, ha2⟩ := ha
      constructor
      · rw [update_embeddings, if_pos hemp, hnil, g1, ← ha1, hsnil]
      · rw [update_embeddings, if_pos hemp, g1, g2, ← ha2]
    · constructor
      · rw [update_embeddings, if_neg hemp]
        simp
      · rw [update_embeddings, if_neg hemp]
        simp [indexSize]

/-- C7, witness: a concrete successful ingestion into the fresh (aligned)
service; the resulting state has one document, one embedding row and one
indexed vector. -/
theorem c7_witness : aligned w1state :=
  c7_index_alignment (fun _ => [0]) initState initDisk SaveOutcome.allOk
    ["hello world"] [] w1state w1disk 1 (by decide) rfl

/-- C8, confirmed: for every service state satisfying the (always reachable)
invariant that a `None` index goes with an empty embedding matrix, and for
any in-memory state at restore time and any prior disk contents, a
successful `save_data` followed by `load_existing_data` restores the exact
document collection and embedding matrix. -/
theorem c8_round_trip (s t : RAGState) (d : Disk)
    (hreach : s.index = none → s.document_embeddings = []) :
    (load_existing_data t (save_data s d SaveOutcome.allOk)).documents =
        s.documents ∧
      (load_existing_data t
          (save_data s d SaveOutcome.allOk)).document_embeddings =
        s.document_embeddings := by
  cases hidx : s.index with
  | some vs => simp [save_data, load_existing_data, hidx]
  | none =>
    have hemb := hreach hidx
    cases hdi : d.index_file with
    | some w => simp [save_data, load_existing_data, hidx, hdi, hemb]
    | none => simp [save_data, load_existing_data, hidx, hdi, hemb]

/-- C8, witness: round trip of the one-document state through a fresh
disk. -/
theorem c8_witness :
    (load_existing_data initState
          (save_data w1state initDisk SaveOutcome.allOk)).documents =
        w1state.documents ∧
      (load_existing_data initState
          (save_data w1state initDisk SaveOutcome.allOk)).document_embeddings =
        w1state.document_embeddings :=
  c8_round_trip w1state initState initDisk (by decide)

/-! ## Search-result padding (C10) -/

lemma pyIndex_neg_one {α : Type} (l : List α) :
    PyStr.pyIndex l (-1) = l.getLast? := by
  unfold PyStr.pyIndex
  have h0 : ¬ ((0 : Int) ≤ -1) := by decide
  have h1 : ((-(-1 : Int)).toNat) = 1 := by decide
  rw [if_neg h0, h1]
  by_cases hl : 1 ≤ l.length
  · rw [if_pos hl, List.getLast?_eq_getElem?, List.get?_eq_getElem?]
  · rw [if_neg hl]
    have hn : l = [] := List.length_eq_zero.mp (by omega)
    subst hn
    rfl

lemma buildRelevant_pad (docs : List ChunkDoc) (dlast : ChunkDoc)
    (hlast : docs.getLast? = some dlast) :
    ∀ (m : Nat) (scs : List Int), scs.length = m →
    ∃ r, buildRelevant docs (scs.zip (List.replicate m (-1))) =
        Except.ok r ∧
      r.map (fun rd => rd.id) = List.replicate m dlast.id := by
  intro m
  induction m with
  | zero =>
    intro scs hlen
    exact ⟨[], by simp [buildRelevant], by simp⟩
  | succ m ih =>
    intro scs hlen
    cases scs with
    | nil => simp at hlen
    | cons sc rest =>
      obtain ⟨r, hr, hid⟩ := ih rest (by simpa using hlen)
      have hc : (-1 : Int) < (docs.length : Int) := by omega
      have hzip : (sc :: rest).zip (List.replicate (m + 1) (-1 : Int)) =
          (sc, -1) :: rest.zip (List.replicate m (-1)) := by
        simp [List.replicate_succ]
      refine ⟨{ content := dlast.content, score := sc, id := dlast.id,
                file_name := dlast.file_name } :: r, ?_, ?_⟩
      · rw [hzip, buildRelevant, if_pos hc, pyIndex_neg_one, hlast, hr]
      · simp [hid, List.replicate_succ]

lemma buildRelevant_prefix (docs : List ChunkDoc) :
    ∀ (ri scs : List Int) (rdocs : List ChunkDoc) (tail : List Int)
      (r0 : List RelDoc),
    (∀ i ∈ ri, 0 ≤ i ∧ i < (docs.length : Int)) →
    lookupAll docs ri = some rdocs →
    ri.length ≤ scs.length →
    buildRelevant docs ((scs.drop ri.length).zip tail) = Except.ok r0 →
    ∃ r, buildRelevant docs (scs.zip (ri ++ tail)) = Except.ok r ∧
      r.map (fun rd => rd.id) =
        rdocs.map (fun doc => doc.id) ++ r0.map (fun rd => rd.id) := by
  intro ri
  induction ri with
  | nil =>
    intro scs rdocs tail r0 _ hlook _ h0
    simp only [lookupAll, Option.some.injEq] at hlook
    subst hlook
    exact ⟨r0, by simpa using h0, by simp⟩
  | cons i ri' ih =>
    intro scs rdocs tail r0 hrange hlook hlen h0
    cases scs with
    | nil => simp at hlen
    | cons sc scs' =>
      unfold lookupAll at hlook
      cases hpi : PyStr.pyIndex docs i with
      | none => rw [hpi] at hlook; simp at hlook
      | some d0 =>
        rw [hpi] at hlook
        cases hla : lookupAll docs ri' with
        | none => rw [hla] at hlook; simp at hlook
        | some rdocs' =>
          rw [hla] at hlook
          simp only [Option.some.injEq] at hlook
          subst hlook
          obtain ⟨r, hr, hid⟩ := ih scs' rdocs' tail r0
            (fun j hj => hrange j (List.mem_cons_of_mem i hj)) hla
            (by simpa using hlen) (by simpa using h0)
          have hcond := hrange i (List.mem_cons_self i ri')
          refine ⟨{ content := d0.content, score := sc, id := d0.id,
                    file_name := d0.file_name } :: r, ?_, ?_⟩
          · have hzip : (sc :: scs').zip ((i :: ri') ++ tail) =
                (sc, i) :: scs'.zip (ri' ++ tail) := rfl
            rw [hzip, buildRelevant, if_pos hcond.2, hpi, hr]
          · simp [hid]

/-- C10, confirmed: on a non-empty collection with a live index, when the
FAISS search result pads `indices` with `-1` entries (as it does whenever
`top_k` exceeds the number of stored vectors), each padding entry passes
the `idx < len(self.documents)` filter (since `-1 <` any length) and
Python's negative indexing resolves `documents[-1]` to the **last** chunk
record, so the returned sources are the real hits' ids followed by one
copy of the last chunk's id per padded slot — the padding is not
omitted. -/
theorem c10_padding_sources (llm : String → String → String) (s : RAGState)
    (question : String) (top_k : Nat) (scores realIdx : List Int)
    (pad : Nat) (realDocs : List ChunkDoc) (dlast : ChunkDoc)
    (hne : s.documents ≠ [])
    (hidx : s.index.isSome = true)
    (hreal : ∀ i ∈ realIdx, 0 ≤ i ∧ i < (s.documents.length : Int))
    (hlook : lookupAll s.documents realIdx = some realDocs)
    (hlast : s.documents.getLast? = some dlast)
    (hlen : scores.length = realIdx.length + pad) :
    (query llm s question top_k scores
        (realIdx ++ List.replicate pad (-1))).map (fun r => r.2.1) =
      Except.ok (realDocs.map (fun doc => doc.id) ++
        List.replicate pad dlast.id) := by
  unfold query
  have hie : s.documents.isEmpty = false := by
    simp [List.isEmpty_iff, hne]
  have hin : s.index.isNone = false := by
    rcases Option.isSome_iff_exists.mp hidx with ⟨v, hv⟩
    rw [hv]
    rfl
  rw [hie, hin, if_neg (by simp)]
  obtain ⟨r0, hpad, hpadid⟩ :=
    buildRelevant_pad s.documents dlast hlast pad
      (scores.drop realIdx.length) (by simp [hlen])
  obtain ⟨r, hr, hid⟩ :=
    buildRelevant_prefix s.documents realIdx scores realDocs
      (List.replicate pad (-1)) r0 hreal hlook (by omega) hpad
  rw [hr]
  simp only [Except.map]
  rw [hid, hpadid]

/-- C10, witness: two stored chunks, `top_k = 3`: one real hit (index 0)
and two `-1` paddings; the sources list repeats the last chunk's id
`"doc_0_1"` twice instead of omitting the padded slots. -/
theorem c10_witness :
    (query (fun _ _ => "ans") w10state "q" 3 [9, 0, 0]
        ([0] ++ List.replicate 2 (-1))).map (fun r => r.2.1) =
      Except.ok ([w10doc1].map (fun doc => doc.id) ++
        List.replicate 2 w10doc2.id) :=
  c10_padding_sources (fun _ _ => "ans") w10state "q" 3 [9, 0, 0] [0] 2
    [w10doc1] w10doc2 (by decide) rfl (by decide) rfl rfl rfl

end RAGService
